import Mathlib

/- Verification development for the hearing-profiler application
   (hearing_profiler.py).  The definitions below are a shallow embedding of
   the Python source: times, durations, gap draws, intensities and sample
   counts are modelled as exact rationals (Python floats are a subset of ℚ
   and all comparisons in the source are plain orderings), amplitudes and
   frequencies as real numbers, numpy buffers as lists of reals.
   Python `int(x)` on the nonnegative values that occur here is `⌊x⌋`. -/

set_option maxHeartbeats 1000000

/-- The two ears, as the string keys 'left' / 'right' of the source. -/
inductive Ear
  | left
  | right
deriving DecidableEq, Repr

/-- One entry of the planned test sequence: the dict
    {'ear': …, 'frequency': …, 'intensity': …, 'heard': None} built by
    create_test_sequence.  `heard` is tri-state: None / True / False. -/
structure Trial (α : Type) where
  ear : Ear
  frequency : α
  intensity : ℚ
  heard : Option Bool
deriving DecidableEq

/-- One tone event recorded by generate_test_audio_stream:
    {'start_time', 'end_time', 'test_index', 'test_data'}. -/
structure Event (α : Type) where
  start_time : ℚ
  end_time : ℚ
  test_index : ℕ
  test_data : Trial α
deriving DecidableEq

/-- self.test_results: the per-(ear, frequency) lists of
    {'intensity': …, 'heard': …} records, in insertion order.
    Modelled as an association list keyed by (ear, frequency); Python dicts
    preserve insertion order and a fresh key goes to the end. -/
abbrev ResultsStore (α : Type) := List ((Ear × α) × List (ℚ × Bool))

/-- Reading self.test_results[ear][freq] (empty when the key is absent). -/
def getResults {α : Type} [DecidableEq α] (rs : ResultsStore α) (ear : Ear) (freq : α) :
    List (ℚ × Bool) :=
  match rs with
  | [] => []
  | (k, v) :: rest => if k = (ear, freq) then v else getResults rest ear freq

/-- The append idiom of the source:
    if freq not in self.test_results[ear]: self.test_results[ear][freq] = []
    self.test_results[ear][freq].append(entry) -/
def addResult {α : Type} [DecidableEq α] (rs : ResultsStore α) (ear : Ear) (freq : α)
    (entry : ℚ × Bool) : ResultsStore α :=
  match rs with
  | [] => [((ear, freq), [entry])]
  | (k, v) :: rest =>
    if k = (ear, freq) then (k, v ++ [entry]) :: rest
    else (k, v) :: addResult rest ear freq entry

/-- np.linspace(a, b, n) evaluated at index i (endpoint included;
    np.linspace(a, b, 1) = [a]). -/
noncomputable def linspace (a b : ℝ) (n : ℕ) (i : ℕ) : ℝ :=
  if n ≤ 1 then a else a + i * (b - a) / ((n : ℝ) - 1)

/-- The fade envelope of generate_tone / play_calibration_tone at index k of
    an N-sample buffer with F fade samples:
      envelope = np.ones_like(t)
      if len(envelope) > 2 * fade_samples:
          envelope[:fade_samples] = np.linspace(0, 1, fade_samples)
          envelope[-fade_samples:] = np.linspace(1, 0, fade_samples) -/
noncomputable def envVal (N F k : ℕ) : ℝ :=
  if 2 * F < N then
    if k < F then linspace 0 1 F k
    else if N - F ≤ k then linspace 1 0 F (k - (N - F))
    else 1
  else 1

/-- generate_tone(frequency, intensity, ear, duration_s) of the source
    (`ear` is unused there).  sample_rate, fade_duration, calibration_volume
    are the object fields it reads.  N = int(sample_rate * duration_s)
    samples; amplitude law:
      min_volume = calibration_volume * 0.01
      volume = 0 if intensity <= 0
               else min_volume * (calibration_volume / min_volume) ** intensity
    tone = volume * sin(2 pi f t) * envelope. -/
noncomputable def generate_tone (sample_rate fade_duration : ℚ) (calibration_volume : ℝ)
    (frequency : ℝ) (intensity : ℚ) (duration_s : ℚ) : List ℝ :=
  let N : ℕ := (⌊sample_rate * duration_s⌋).toNat
  let F : ℕ := (⌊fade_duration * sample_rate⌋).toNat
  let max_volume : ℝ := calibration_volume
  let min_volume : ℝ := max_volume * 0.01
  let actual_volume : ℝ :=
    if intensity ≤ 0 then 0
    else min_volume * (max_volume / min_volume) ^ ((intensity : ℝ))
  (List.range N).map fun k =>
    actual_volume * Real.sin (2 * Real.pi * frequency * linspace 0 ((duration_s : ℝ)) N k) *
      envVal N F k

/-- play_calibration_tone: a 1.0 s tone at the configured calibration
    frequency, amplitude = calibration_volume times a raw sine (no
    logarithmic intensity scaling), multiplied by the fade envelope. -/
noncomputable def play_calibration_tone (sample_rate fade_duration : ℚ)
    (calibration_volume : ℝ) (calibration_frequency : ℝ) : List ℝ :=
  let cal_duration : ℚ := 1
  let N : ℕ := (⌊sample_rate * cal_duration⌋).toNat
  let F : ℕ := (⌊fade_duration * sample_rate⌋).toNat
  (List.range N).map fun k =>
    calibration_volume *
      Real.sin (2 * Real.pi * calibration_frequency * linspace 0 ((cal_duration : ℝ)) N k) *
      envVal N F k

/-- The mutable state touched by the realtime callback of
    start_continuous_audio: is_playing_tone, current_tone, audio_position,
    calibration_volume. -/
structure AudioState where
  is_playing_tone : Bool
  current_tone : List ℝ
  audio_position : ℕ
  calibration_volume : ℝ

/-- audio_callback(outdata, frames, time, status).  `noise` stands for the
    np.random.normal(0, 0.001, frames) draw used in the idle branch; it is
    passed in explicitly since it is the only nondeterminism here.
    Returns (the frames written to outdata, the state after the call). -/
noncomputable def audio_callback (st : AudioState) (frames : ℕ) (noise : List ℝ) :
    List ℝ × AudioState :=
  if st.is_playing_tone ∧ 0 < st.current_tone.length then
    let end_pos := min (st.audio_position + frames) st.current_tone.length
    if st.audio_position < end_pos then
      let tone_frames := end_pos - st.audio_position
      (((st.current_tone.drop st.audio_position).take tone_frames).map
          (fun x => x * st.calibration_volume) ++ List.replicate (frames - tone_frames) 0,
       { st with
           audio_position := end_pos,
           is_playing_tone :=
             if st.current_tone.length ≤ end_pos then false else st.is_playing_tone })
    else
      (List.replicate frames 0, st)
  else
    (noise, { st with audio_position := 0 })

/-- np.logspace(a, b, n): n points 10 ** y for y log-spaced over [a, b]. -/
noncomputable def logspace (a b : ℝ) (n : ℕ) : List ℝ :=
  (List.range n).map fun k => (10 : ℝ) ^ linspace a b n k

/-- The two test modes of create_test_sequence. -/
inductive TestMode
  | quick
  | full

/-- create_test_sequence(mode) before the final random.shuffle: the cross
    product over ears × frequencies × intensities, in loop order, every
    trial with heard = None.  quick mode: 8 frequencies log-spaced between
    250 and 8000 Hz and intensities [0.2, 0.6, 1.0]; full mode: the
    configured self.frequency_bands and self.intensity_levels. -/
noncomputable def create_test_sequence (frequency_bands : List ℝ)
    (intensity_levels : List ℚ) (mode : TestMode) : List (Trial ℝ) :=
  let frequencies : List ℝ :=
    match mode with
    | TestMode.quick => logspace (Real.logb 10 250) (Real.logb 10 8000) 8
    | TestMode.full => frequency_bands
  let intensities : List ℚ :=
    match mode with
    | TestMode.quick => [1/5, 3/5, 1]
    | TestMode.full => intensity_levels
  [Ear.left, Ear.right].flatMap fun ear =>
    frequencies.flatMap fun freq =>
      intensities.map fun intensity =>
        { ear := ear, frequency := freq, intensity := intensity, heard := none }

/-- The loop body chain of generate_test_audio_stream over the remaining
    (test, drawn gap) pairs, carrying current_time and the running index.
    Per trial: int(gap * sample_rate) silence samples, then the tone
    (current_time advances by the exact float values, the buffer by the
    truncated sample counts), recording an event; after the last trial
    int(2.0 * sample_rate) trailing silence samples. -/
noncomputable def compileAux (sample_rate tone_duration fade_duration : ℚ)
    (calibration_volume : ℝ) :
    List (Trial ℝ × ℚ) → ℚ → ℕ → List ℝ × List (Event ℝ)
  | [], _, _ => (List.replicate ((⌊(2 : ℚ) * sample_rate⌋).toNat) 0, [])
  | (test, gap) :: rest, current_time, i =>
    let gap_samples := (⌊gap * sample_rate⌋).toNat
    let tone := generate_tone sample_rate fade_duration calibration_volume
        test.frequency test.intensity tone_duration
    let tone_start := current_time + gap
    let tone_end := tone_start + (tone.length : ℚ) / sample_rate
    let pr := compileAux sample_rate tone_duration fade_duration calibration_volume
        rest tone_end (i + 1)
    (List.replicate gap_samples 0 ++ tone ++ pr.1,
     { start_time := tone_start, end_time := tone_end, test_index := i,
       test_data := test } :: pr.2)

/-- generate_test_audio_stream(test_sequence).  The random.uniform gap draws
    are passed as the list `gaps` (one per trial). -/
noncomputable def generate_test_audio_stream (sample_rate tone_duration fade_duration : ℚ)
    (calibration_volume : ℝ) (test_sequence : List (Trial ℝ)) (gaps : List ℚ) :
    List ℝ × List (Event ℝ) :=
  compileAux sample_rate tone_duration fade_duration calibration_volume
    (test_sequence.zip gaps) 0 0

/-- The window test of tone_heard for one event at elapsed time t:
    event['start_time'] <= t <= event['end_time'] + 1.0 and heard is None. -/
def matchesResponse {α : Type} (elapsed : ℚ) (e : Event α) : Prop :=
  e.start_time ≤ elapsed ∧ elapsed ≤ e.end_time + 1 ∧ e.test_data.heard = none

instance {α : Type} (elapsed : ℚ) (e : Event α) : Decidable (matchesResponse elapsed e) :=
  inferInstanceAs (Decidable (_ ∧ _ ∧ _))

/-- event['test_data']['heard'] = True. -/
def markHeard {α : Type} (e : Event α) : Event α :=
  { e with test_data := { e.test_data with heard := some true } }

/-- The scan loop of tone_heard: first event whose window contains the
    elapsed time and whose trial is still unset is marked heard and its
    (intensity, True) record appended; `break` afterwards. -/
def toneHeardScan {α : Type} [DecidableEq α] (elapsed : ℚ) :
    List (Event α) → ResultsStore α → List (Event α) × ResultsStore α
  | [], rs => ([], rs)
  | e :: es, rs =>
    if matchesResponse elapsed e then
      (markHeard e :: es,
       addResult rs e.test_data.ear e.test_data.frequency (e.test_data.intensity, true))
    else
      let pr := toneHeardScan elapsed es rs
      (e :: pr.1, pr.2)

/-- tone_heard(): current_time = time.time() - self.test_start_time, then
    the scan over self.tone_events. -/
def tone_heard {α : Type} [DecidableEq α] (events : List (Event α)) (rs : ResultsStore α)
    (now test_start_time : ℚ) : List (Event α) × ResultsStore α :=
  toneHeardScan (now - test_start_time) events rs

/-- The per-event action of the finish_test sweep. -/
def sweepTrial {α : Type} (e : Event α) : Event α :=
  if e.test_data.heard = none then
    { e with test_data := { e.test_data with heard := some false } }
  else e

/-- The sweep loop of finish_test: every event whose trial is still unset is
    marked heard = False and its (intensity, False) record appended. -/
def finishScan {α : Type} [DecidableEq α] :
    List (Event α) → ResultsStore α → List (Event α) × ResultsStore α
  | [], rs => ([], rs)
  | e :: es, rs =>
    if e.test_data.heard = none then
      let pr := finishScan es
        (addResult rs e.test_data.ear e.test_data.frequency (e.test_data.intensity, false))
      ({ e with test_data := { e.test_data with heard := some false } } :: pr.1, pr.2)
    else
      let pr := finishScan es rs
      (e :: pr.1, pr.2)

/-- finish_test(): the unheard-tone sweep (the UI updates around it carry no
    trial or results state). -/
def finish_test {α : Type} [DecidableEq α] (events : List (Event α)) (rs : ResultsStore α) :
    List (Event α) × ResultsStore α :=
  finishScan events rs

/-- One loaded previous result, as appended to self.previous_results. -/
structure PreviousResult where
  timestamp : String
  calibration_volume : ℚ
  results : ResultsStore ℚ
  filename : String
deriving DecidableEq

/-- The in-memory state save_results / load_results read and write. -/
structure AppState where
  test_results : ResultsStore ℚ
  previous_results : List PreviousResult
deriving DecidableEq

/-- The JSON object written by save_results.  At the JSON boundary the float
    frequency keys become strings; `enc` below stands for that str(float)
    conversion. -/
structure SavedData where
  timestamp : String
  calibration_volume : ℚ
  frequency_bands : List ℝ
  intensity_levels : List ℚ
  results : List ((Ear × String) × List (ℚ × Bool))

/-- The data dict built inside save_results. -/
def buildSaveData (timestamp : String) (calibration_volume : ℚ) (frequency_bands : List ℝ)
    (intensity_levels : List ℚ) (enc : ℚ → String) (rs : ResultsStore ℚ) : SavedData :=
  { timestamp := timestamp, calibration_volume := calibration_volume,
    frequency_bands := frequency_bands, intensity_levels := intensity_levels,
    results := rs.map fun kv => ((kv.1.1, enc kv.1.2), kv.2) }

/-- save_results: refuses when there are no results at all
    (not test_results['left'] and not test_results['right']), otherwise
    serializes the store. -/
def save_results (st : AppState) (timestamp : String) (calibration_volume : ℚ)
    (frequency_bands : List ℝ) (intensity_levels : List ℚ) (enc : ℚ → String) :
    Option SavedData :=
  if st.test_results = [] then none
  else some (buildSaveData timestamp calibration_volume frequency_bands intensity_levels
    enc st.test_results)

/-- The exceptions load_results can see: the open/json.load failure, the
    missing 'results' key, and the float(freq_str) ValueError. -/
inductive LoadError
  | parseError
  | keyError
  | valueError
deriving DecidableEq

/-- What json.load hands back for a results file: optional fields, string
    frequency keys. -/
structure RawData where
  timestamp : Option String
  calibration_volume : Option ℚ
  results : Option (List ((Ear × String) × List (ℚ × Bool)))

/-- A well-formed saved file parses back to the obvious RawData. -/
def savedToRaw (d : SavedData) : RawData :=
  { timestamp := some d.timestamp, calibration_volume := some d.calibration_volume,
    results := some d.results }

/-- The key-fixing loop of load_results: freq_float = float(freq_str) for
    every entry; `dec` stands for Python float() on a string, failing
    (ValueError) with none. -/
def decodeResults (dec : String → Option ℚ) :
    List ((Ear × String) × List (ℚ × Bool)) → Option (ResultsStore ℚ)
  | [] => some []
  | ((ear, s), v) :: rest =>
    match dec s, decodeResults dec rest with
    | some f, some r => some (((ear, f), v) :: r)
    | _, _ => none

/-- The fallback timestamp of load_results: data.get('timestamp', 'Unknown'). -/
def unknownLabel : String := "Unknown"

/-- load_results: everything inside the try block.  On any failure the
    except branch only shows a message box, so the state is returned
    untouched; on success the parsed overlay is appended to
    previous_results. -/
def load_results (input : Except LoadError RawData) (dec : String → Option ℚ)
    (filename : String) (st : AppState) : AppState × Except LoadError Unit :=
  match input with
  | Except.error e => (st, Except.error e)
  | Except.ok data =>
    match data.results with
    | none => (st, Except.error LoadError.keyError)
    | some raw =>
      match decodeResults dec raw with
      | none => (st, Except.error LoadError.valueError)
      | some fixed =>
        ({ st with
             previous_results := st.previous_results ++
               [{ timestamp := data.timestamp.getD unknownLabel,
                  calibration_volume := data.calibration_volume.getD (1/2),
                  results := fixed, filename := filename }] },
         Except.ok ())

/-- Peak amplitude of a sample buffer: max |sample| (0 for the empty buffer). -/
noncomputable def peakAmplitude (l : List ℝ) : ℝ :=
  l.foldr (fun x m => max |x| m) 0

/-- What one tone_heard call does (the property of claim C1): with
    elapsed = now - test_start_time, either no event is pending with its
    window containing elapsed and nothing changes, or the first such event
    (in list order, which is ascending start_time order for a compiled
    list) has its trial marked heard = True and (intensity, True) appended
    for its (ear, frequency), and nothing else changes. -/
def toneHeardSpec {α : Type} [DecidableEq α] (events : List (Event α)) (rs : ResultsStore α)
    (now test_start_time : ℚ) : Prop :=
  ((∀ e ∈ events, ¬ matchesResponse (now - test_start_time) e) →
      tone_heard events rs now test_start_time = (events, rs)) ∧
  (∀ i, ∀ hi : i < events.length,
      matchesResponse (now - test_start_time) (events.get ⟨i, hi⟩) →
      (∀ j, ∀ hj : j < i, ¬ matchesResponse (now - test_start_time) (events.get ⟨j, hj.trans hi⟩)) →
      tone_heard events rs now test_start_time =
        (events.set i (markHeard (events.get ⟨i, hi⟩)),
         addResult rs (events.get ⟨i, hi⟩).test_data.ear
           (events.get ⟨i, hi⟩).test_data.frequency
           ((events.get ⟨i, hi⟩).test_data.intensity, true)))

/-- What the finish_test sweep does (claim C4): afterwards every trial's
    heard field is set (none remains None), the events are exactly the
    input events with unset trials marked heard = False, and for every
    (ear, frequency) the results gained exactly the (intensity, False)
    records of its swept events, in event order. -/
def finishSpec {α : Type} [DecidableEq α] (events : List (Event α)) (rs : ResultsStore α) :
    Prop :=
  (finish_test events rs).1 = events.map sweepTrial ∧
  (∀ e ∈ (finish_test events rs).1, e.test_data.heard ≠ none) ∧
  ∀ ear freq, getResults (finish_test events rs).2 ear freq =
    getResults rs ear freq ++
      (events.filter fun e =>
        decide (e.test_data.heard = none ∧ e.test_data.ear = ear ∧
          e.test_data.frequency = freq)).map
        fun e => (e.test_data.intensity, false)

/-- What one audio_callback invocation does (claim C5): when a tone is
    active and the cursor is inside the buffer, it writes the next
    min(frames, remaining) samples scaled by the calibration volume,
    zero-pads the shortfall, advances the cursor by the copied count and
    clears the active flag exactly when the cursor reaches the end; when no
    tone is active it writes the noise-floor draw and resets the cursor. -/
def audioCallbackSpec (st : AudioState) (frames : ℕ) (noise : List ℝ) : Prop :=
  (st.is_playing_tone = true → st.audio_position < st.current_tone.length →
    (audio_callback st frames noise).1 =
      ((st.current_tone.drop st.audio_position).take
          (min frames (st.current_tone.length - st.audio_position))).map
        (fun x => x * st.calibration_volume) ++
        List.replicate (frames - min frames (st.current_tone.length - st.audio_position)) 0 ∧
    (audio_callback st frames noise).1.length = frames ∧
    (audio_callback st frames noise).2.audio_position =
      st.audio_position + min frames (st.current_tone.length - st.audio_position) ∧
    ((audio_callback st frames noise).2.is_playing_tone = false ↔
      (audio_callback st frames noise).2.audio_position = st.current_tone.length)) ∧
  (st.is_playing_tone = false →
    (audio_callback st frames noise).1 = noise ∧
    (audio_callback st frames noise).2.audio_position = 0 ∧
    (noise ≠ List.replicate frames 0 →
      (audio_callback st frames noise).1 ≠ List.replicate frames 0))

/-- The amended amplitude law of generate_tone (claim C3): intensity ≤ 0
    gives an all-zero buffer; for positive intensity the buffer is
    (calibration_volume * 0.01 * 100 ** intensity) * sin(2 pi f t) *
    envelope sample-wise, so its peak amplitude is at most that coefficient
    (exact equality need not hold). -/
def generateToneSpec (sample_rate fade_duration : ℚ) (calibration_volume frequency : ℝ)
    (intensity duration_s : ℚ) : Prop :=
  (intensity ≤ 0 →
    ∀ x ∈ generate_tone sample_rate fade_duration calibration_volume frequency intensity
      duration_s, x = 0) ∧
  (0 < intensity →
    generate_tone sample_rate fade_duration calibration_volume frequency intensity
        duration_s =
      (List.range ((⌊sample_rate * duration_s⌋).toNat)).map (fun k =>
        (calibration_volume * 0.01 * (100 : ℝ) ^ ((intensity : ℝ))) *
          Real.sin (2 * Real.pi * frequency *
            linspace 0 ((duration_s : ℝ)) ((⌊sample_rate * duration_s⌋).toNat) k) *
          envVal ((⌊sample_rate * duration_s⌋).toNat) ((⌊fade_duration * sample_rate⌋).toNat)
            k) ∧
    peakAmplitude (generate_tone sample_rate fade_duration calibration_volume frequency
        intensity duration_s) ≤
      calibration_volume * 0.01 * (100 : ℝ) ^ ((intensity : ℝ)))

/-- The amended delivered-amplitude law (claim C9): playing a synthesized
    tone through audio_callback multiplies every buffer sample by the
    calibration volume once more, so the delivered peak is
    calibration_volume times the buffer peak, hence at most
    calibration_volume ** 2 * 0.01 * 100 ** intensity. -/
def deliveredSpec (sample_rate fade_duration : ℚ) (calibration_volume frequency : ℝ)
    (intensity duration_s : ℚ) (noise : List ℝ) : Prop :=
  let tone := generate_tone sample_rate fade_duration calibration_volume frequency intensity
    duration_s
  let st : AudioState :=
    { is_playing_tone := true, current_tone := tone, audio_position := 0,
      calibration_volume := calibration_volume }
  (audio_callback st tone.length noise).1 = tone.map (fun x => x * calibration_volume) ∧
  peakAmplitude (audio_callback st tone.length noise).1 =
    peakAmplitude tone * calibration_volume ∧
  (0 < intensity →
    peakAmplitude (audio_callback st tone.length noise).1 ≤
      calibration_volume * calibration_volume * 0.01 * (100 : ℝ) ^ ((intensity : ℝ)))

/-- The amended calibration-tone law (claim C10): play_calibration_tone
    builds calibration_volume times a raw sine times the fade envelope —
    bypassing the logarithmic intensity mapping — so its peak amplitude is
    at most calibration_volume (and need not equal it exactly). -/
def calibrationToneSpec (sample_rate fade_duration : ℚ)
    (calibration_volume calibration_frequency : ℝ) : Prop :=
  play_calibration_tone sample_rate fade_duration calibration_volume calibration_frequency =
    (List.range ((⌊sample_rate * (1 : ℚ)⌋).toNat)).map (fun k =>
      calibration_volume *
        Real.sin (2 * Real.pi * calibration_frequency *
          linspace 0 (((1 : ℚ) : ℝ)) ((⌊sample_rate * (1 : ℚ)⌋).toNat) k) *
        envVal ((⌊sample_rate * (1 : ℚ)⌋).toNat) ((⌊fade_duration * sample_rate⌋).toNat) k) ∧
  peakAmplitude (play_calibration_tone sample_rate fade_duration calibration_volume
    calibration_frequency) ≤ calibration_volume

/-- Claim C2 as stated: event count = trial count, events strictly sorted
    and non-overlapping, and total buffer duration within 1 sample of
    (sum of drawn gaps) + (sum of tone durations) + 2.0 s trailing silence. -/
def compiledClaimStatement (sample_rate tone_duration : ℚ) (tests : List (Trial ℝ))
    (gaps : List ℚ) (pr : List ℝ × List (Event ℝ)) : Prop :=
  pr.2.length = tests.length ∧
  pr.2.Pairwise (fun a b => a.start_time < b.start_time ∧ a.end_time ≤ b.start_time) ∧
  |(pr.1.length : ℚ) / sample_rate -
      (gaps.sum + tests.length * tone_duration + 2)| ≤ 1 / sample_rate

/-- The amended compiled-timeline postcondition (claim C2): event count =
    trial count; events strictly sorted by start_time and non-overlapping;
    the buffer length is exactly the truncated gap sample counts plus the
    per-trial tone sample count plus the truncated trailing-silence count;
    and the duration falls short of the drawn sum by less than one sample
    per gap, per tone, and for the trailing silence (2n+1 samples for n
    trials) — not by at most 1 sample in general. -/
def compiledSpec (sample_rate tone_duration fade_duration : ℚ) (calibration_volume : ℝ)
    (tests : List (Trial ℝ)) (gaps : List ℚ) : Prop :=
  let pr := generate_test_audio_stream sample_rate tone_duration fade_duration
    calibration_volume tests gaps
  pr.2.length = tests.length ∧
  pr.2.Pairwise (fun a b => a.start_time < b.start_time ∧ a.end_time ≤ b.start_time) ∧
  (pr.1.length : ℚ) =
    (gaps.map fun g => ((⌊g * sample_rate⌋).toNat : ℚ)).sum +
      tests.length * ((⌊sample_rate * tone_duration⌋).toNat : ℚ) +
      ((⌊(2 : ℚ) * sample_rate⌋).toNat : ℚ) ∧
  0 ≤ (gaps.sum + tests.length * tone_duration + 2) - (pr.1.length : ℚ) / sample_rate ∧
  (gaps.sum + tests.length * tone_duration + 2) - (pr.1.length : ℚ) / sample_rate <
    (2 * tests.length + 1) / sample_rate

/-- The save/load round trip (claim C7): saving the current results store
    produces the JSON data dict with stringified frequency keys, and loading
    that file back appends an overlay whose (ear, frequency) →
    [(intensity, heard)] mapping is identical to the saved store. -/
def roundTripSpec (ts fname : String) (cv : ℚ) (fb : List ℝ) (il : List ℚ)
    (enc : ℚ → String) (dec : String → Option ℚ) (st st2 : AppState) : Prop :=
  save_results st ts cv fb il enc = some (buildSaveData ts cv fb il enc st.test_results) ∧
  load_results (Except.ok (savedToRaw (buildSaveData ts cv fb il enc st.test_results)))
      dec fname st2 =
    ({ st2 with
        previous_results := st2.previous_results ++
          [{ timestamp := ts, calibration_volume := cv, results := st.test_results,
             filename := fname }] },
     Except.ok ())

/-- The (ear, frequency, intensity) tuples of the quick-mode cross product,
    in planner loop order (claim C6). -/
noncomputable def quickExpectedTuples : List (Ear × ℝ × ℚ) :=
  [Ear.left, Ear.right].flatMap fun ear =>
    (logspace (Real.logb 10 250) (Real.logb 10 8000) 8).flatMap fun freq =>
      [1/5, 3/5, 1].map fun intensity => (ear, freq, intensity)

/-- The quick-mode planner property (claim C6): exactly 48 trials whose
    (ear, frequency, intensity) multiset is the cross product of the two
    ears, the 8 log-spaced frequencies between 250 and 8000 Hz and the
    intensities {0.2, 0.6, 1.0}, every trial created with heard unset. -/
def quickPlannerSpec (l : List (Trial ℝ)) : Prop :=
  l.length = 48 ∧
  ((l.map fun t => (t.ear, t.frequency, t.intensity) : List (Ear × ℝ × ℚ)) :
      Multiset (Ear × ℝ × ℚ)) =
    (quickExpectedTuples : Multiset (Ear × ℝ × ℚ)) ∧
  ∀ t ∈ l, t.heard = none

/- ------------------------------------------------------------------ -/
/- Helper lemmas: results store                                        -/
/- ------------------------------------------------------------------ -/

theorem getResults_addResult {α : Type} [DecidableEq α] (rs : ResultsStore α)
    (ear : Ear) (freq : α) (entry : ℚ × Bool) (ear2 : Ear) (freq2 : α) :
    getResults (addResult rs ear freq entry) ear2 freq2 =
      if ear = ear2 ∧ freq = freq2 then getResults rs ear2 freq2 ++ [entry]
      else getResults rs ear2 freq2 := by
  induction rs with
  | nil =>
    by_cases h : ear = ear2 ∧ freq = freq2
    · obtain ⟨h1, h2⟩ := h
      subst h1; subst h2
      simp [addResult, getResults]
    · have hne : ¬ ((ear, freq) = (ear2, freq2)) := by
        simpa [Prod.ext_iff] using h
      simp [addResult, getResults, hne, h]
  | cons head rest ih =>
    obtain ⟨k, v⟩ := head
    by_cases hk : k = (ear, freq)
    · subst hk
      by_cases h2 : (ear, freq) = (ear2, freq2)
      · have h : ear = ear2 ∧ freq = freq2 := by simpa [Prod.ext_iff] using h2
        simp [addResult, getResults, h2, h]
      · have h : ¬ (ear = ear2 ∧ freq = freq2) := by
          simpa [Prod.ext_iff] using h2
        simp [addResult, getResults, h2, h]
    · by_cases h2 : k = (ear2, freq2)
      · subst h2
        have h : ¬ (ear = ear2 ∧ freq = freq2) := by
          intro hc
          exact hk (by simp [Prod.ext_iff, hc.1.symm, hc.2.symm])
        simp [addResult, getResults, hk, h]
      · simp [addResult, getResults, hk, h2, ih]

/- ------------------------------------------------------------------ -/
/- Helper lemmas: tone_heard                                           -/
/- ------------------------------------------------------------------ -/

theorem toneHeardScan_none {α : Type} [DecidableEq α] (t : ℚ) (es : List (Event α))
    (rs : ResultsStore α) (h : ∀ e ∈ es, ¬ matchesResponse t e) :
    toneHeardScan t es rs = (es, rs) := by
  induction es with
  | nil => rfl
  | cons e es ih =>
    have he : ¬ matchesResponse t e := h e (by simp)
    simp [toneHeardScan, he, ih (fun x hx => h x (by simp [hx]))]

theorem toneHeardScan_found {α : Type} [DecidableEq α] (t : ℚ) :
    ∀ (es : List (Event α)) (rs : ResultsStore α) (i : ℕ) (hi : i < es.length),
      matchesResponse t (es.get ⟨i, hi⟩) →
      (∀ j, ∀ hj : j < i, ¬ matchesResponse t (es.get ⟨j, hj.trans hi⟩)) →
      toneHeardScan t es rs =
        (es.set i (markHeard (es.get ⟨i, hi⟩)),
         addResult rs (es.get ⟨i, hi⟩).test_data.ear (es.get ⟨i, hi⟩).test_data.frequency
           ((es.get ⟨i, hi⟩).test_data.intensity, true)) := by
  intro es
  induction es with
  | nil => intro rs i hi; exact absurd hi (by simp)
  | cons e es ih =>
    intro rs i hi hm hmin
    cases i with
    | zero =>
      simp only [List.get] at hm
      simp [toneHeardScan, hm]
    | succ k =>
      have h0 : ¬ matchesResponse t e := by
        have := hmin 0 (Nat.succ_pos k)
        simpa [List.get] using this
      have hk : k < es.length := Nat.lt_of_succ_lt_succ hi
      have hmin2 : ∀ j, ∀ hj : j < k, ¬ matchesResponse t (es.get ⟨j, hj.trans hk⟩) := by
        intro j hj
        have := hmin (j + 1) (Nat.succ_lt_succ hj)
        simpa [List.get] using this
      have hm2 : matchesResponse t (es.get ⟨k, hk⟩) := by
        simpa [List.get] using hm
      have := ih rs k hk hm2 hmin2
      simp only [List.get] at this ⊢
      simp [toneHeardScan, h0, this]

/- ------------------------------------------------------------------ -/
/- Helper lemmas: finish_test                                          -/
/- ------------------------------------------------------------------ -/

theorem finishScan_fst {α : Type} [DecidableEq α] :
    ∀ (es : List (Event α)) (rs : ResultsStore α),
      (finishScan es rs).1 = es.map sweepTrial := by
  intro es
  induction es with
  | nil => intro rs; rfl
  | cons e es ih =>
    intro rs
    by_cases h : e.test_data.heard = none <;> simp [finishScan, sweepTrial, h, ih]

theorem sweepTrial_heard_ne_none {α : Type} (e : Event α) :
    (sweepTrial e).test_data.heard ≠ none := by
  unfold sweepTrial
  by_cases h : e.test_data.heard = none <;> simp [h]

theorem finishScan_snd {α : Type} [DecidableEq α] :
    ∀ (es : List (Event α)) (rs : ResultsStore α) (ear : Ear) (freq : α),
      getResults (finishScan es rs).2 ear freq =
        getResults rs ear freq ++
          (es.filter fun e =>
            decide (e.test_data.heard = none ∧ e.test_data.ear = ear ∧
              e.test_data.frequency = freq)).map
            fun e => (e.test_data.intensity, false) := by
  intro es
  induction es with
  | nil => intro rs ear freq; simp [finishScan]
  | cons e es ih =>
    intro rs ear freq
    by_cases h : e.test_data.heard = none
    · rw [show (finishScan (e :: es) rs).2 =
          (finishScan es (addResult rs e.test_data.ear e.test_data.frequency
            (e.test_data.intensity, false))).2 by simp [finishScan, h]]
      rw [ih, getResults_addResult]
      by_cases hm : e.test_data.ear = ear ∧ e.test_data.frequency = freq
      · simp [List.filter_cons, h, hm, hm.1, hm.2]
      · simp [List.filter_cons, h, hm]
    · rw [show (finishScan (e :: es) rs).2 = (finishScan es rs).2 by simp [finishScan, h]]
      rw [ih]
      simp [List.filter_cons, h]

/-- C1: a single tone_heard call computes elapsed = now - test_start_time,
    scans the compiled events in ascending start_time order and resolves at
    most one trial — the first pending event whose window
    [start_time, end_time + 1.0] contains elapsed gets heard = True and an
    (intensity, True) record for its (ear, frequency); if no pending window
    contains elapsed, nothing changes. -/
theorem tone_heard_resolves_first_pending {α : Type} [DecidableEq α]
    (events : List (Event α)) (rs : ResultsStore α) (now t0 : ℚ)
    (hsorted : events.Pairwise fun a b => a.start_time < b.start_time) :
    toneHeardSpec events rs now t0 := by
  constructor
  · intro h
    exact toneHeardScan_none _ events rs h
  · intro i hi hm hmin
    exact toneHeardScan_found _ events rs i hi hm hmin

/-- Witness for C1: a concrete sorted two-event timeline where the signal at
    elapsed 3 s falls in the second (pending) event's window. -/
theorem tone_heard_resolves_first_pending_witness :
    ([(⟨0, 1, 0, ⟨Ear.left, 1000, 1, some true⟩⟩ : Event ℚ),
      ⟨2, 3, 1, ⟨Ear.right, 2000, 1, none⟩⟩].Pairwise
        fun a b => a.start_time < b.start_time) ∧
    toneHeardSpec
      [(⟨0, 1, 0, ⟨Ear.left, 1000, 1, some true⟩⟩ : Event ℚ),
       ⟨2, 3, 1, ⟨Ear.right, 2000, 1, none⟩⟩] [] 3 0 :=
  ⟨by decide, tone_heard_resolves_first_pending _ _ _ _ (by decide)⟩

/-- C4: after the finish_test sweep every trial's heard field is set (true
    or false), and every trial swept as unheard gets an (intensity, False)
    record appended for its (ear, frequency). -/
theorem finish_test_sweep_spec {α : Type} [DecidableEq α] (events : List (Event α))
    (rs : ResultsStore α) : finishSpec events rs := by
  refine ⟨finishScan_fst events rs, ?_, finishScan_snd events rs⟩
  intro e he
  rw [show (finish_test events rs).1 = events.map sweepTrial from finishScan_fst events rs]
    at he
  obtain ⟨x, _, rfl⟩ := List.mem_map.1 he
  exact sweepTrial_heard_ne_none x

/-- C5: one audio_callback invocation with frame count f ≥ 1: active with the
    cursor inside the buffer, it writes min(f, remaining) samples from
    buffer[position:] scaled by the calibration volume, zero-pads the
    shortfall, advances position by the copied count and clears the active
    flag exactly when position reaches the buffer length; inactive, it
    writes the noise-floor draw (not the zero fill) into all f frames. -/
theorem audio_callback_behavior (st : AudioState) (frames : ℕ) (noise : List ℝ)
    (hfr : 1 ≤ frames) (hn : noise.length = frames) :
    audioCallbackSpec st frames noise := by
  constructor
  · intro hp hpos
    have hcond : st.is_playing_tone ∧ 0 < st.current_tone.length := ⟨by simp [hp], by omega⟩
    have hlt : st.audio_position < min (st.audio_position + frames) st.current_tone.length := by
      omega
    have hstep : audio_callback st frames noise =
        (((st.current_tone.drop st.audio_position).take
            (min (st.audio_position + frames) st.current_tone.length - st.audio_position)).map
          (fun x => x * st.calibration_volume) ++
          List.replicate
            (frames -
              (min (st.audio_position + frames) st.current_tone.length - st.audio_position)) 0,
         { st with
             audio_position := min (st.audio_position + frames) st.current_tone.length,
             is_playing_tone :=
               if st.current_tone.length ≤ min (st.audio_position + frames) st.current_tone.length
               then false else st.is_playing_tone }) := by
      simp only [audio_callback, if_pos hcond, if_pos hlt]
    have e1 : min (st.audio_position + frames) st.current_tone.length - st.audio_position =
        min frames (st.current_tone.length - st.audio_position) := by omega
    have e2 : min (st.audio_position + frames) st.current_tone.length =
        st.audio_position + min frames (st.current_tone.length - st.audio_position) := by omega
    refine ⟨?_, ?_, ?_, ?_⟩
    · rw [hstep, e1]
    · rw [hstep]
      simp only [List.length_append, List.length_map, List.length_take, List.length_drop,
        List.length_replicate]
      omega
    · rw [hstep, e2]
    · rw [hstep]
      by_cases hend : st.current_tone.length ≤
          min (st.audio_position + frames) st.current_tone.length
      · have hmin : min (st.audio_position + frames) st.current_tone.length =
            st.current_tone.length := by omega
        simp [hend, hmin]
      · have hmin : min (st.audio_position + frames) st.current_tone.length ≠
            st.current_tone.length := by omega
        simp [hend, hmin, hp]
  · intro hp
    have hcond : ¬ (st.is_playing_tone ∧ 0 < st.current_tone.length) := by simp [hp]
    have hstep : audio_callback st frames noise = (noise, { st with audio_position := 0 }) := by
      simp only [audio_callback, if_neg hcond]
    refine ⟨by rw [hstep], by rw [hstep], ?_⟩
    intro hne
    rw [hstep]
    exact hne

/-- Witness for C5: an idle callback with one frame of noise. -/
theorem audio_callback_behavior_witness :
    1 ≤ 1 ∧ ([(0 : ℝ)].length = 1) ∧
      audioCallbackSpec ⟨false, [], 0, 1⟩ 1 [(0 : ℝ)] :=
  ⟨le_refl 1, rfl, audio_callback_behavior _ _ _ (le_refl 1) rfl⟩

/- ------------------------------------------------------------------ -/
/- Helper lemmas: persistence                                          -/
/- ------------------------------------------------------------------ -/

theorem decodeResults_encode (dec : String → Option ℚ) (enc : ℚ → String) :
    ∀ rs : ResultsStore ℚ, (∀ kv ∈ rs, dec (enc kv.1.2) = some kv.1.2) →
      decodeResults dec (rs.map fun kv => ((kv.1.1, enc kv.1.2), kv.2)) = some rs := by
  intro rs
  induction rs with
  | nil => intro h; rfl
  | cons kv rest ih =>
    intro h
    obtain ⟨⟨ear, freq⟩, v⟩ := kv
    have h1 : dec (enc freq) = some freq := h ((ear, freq), v) (by simp)
    have h2 := ih fun x hx => h x (by simp [hx])
    simp [decodeResults, h1, h2]

/-- C7: serializing the results store to the results-file JSON (frequency
    keys stringified by `enc`) and loading it back (keys re-parsed by `dec`,
    Python float(str(x)) being the identity on the stored keys) reproduces
    an identical (ear, frequency) → [(intensity, heard)] mapping in the
    appended overlay. -/
theorem save_load_round_trip (ts fname : String) (cv : ℚ) (fb : List ℝ) (il : List ℚ)
    (enc : ℚ → String) (dec : String → Option ℚ) (st st2 : AppState)
    (hne : st.test_results ≠ [])
    (hdec : ∀ kv ∈ st.test_results, dec (enc kv.1.2) = some kv.1.2) :
    roundTripSpec ts fname cv fb il enc dec st st2 := by
  constructor
  · simp [save_results, hne]
  · have hd := decodeResults_encode dec enc st.test_results hdec
    simp [load_results, savedToRaw, buildSaveData, hd]

/-- Witness for C7: a one-key store with frequency 250 Hz and encode/decode
    functions that round-trip that key. -/
theorem save_load_round_trip_witness :
    ((⟨[((Ear.left, 250), [(1, true)])], []⟩ : AppState).test_results ≠ []) ∧
    (∀ kv ∈ (⟨[((Ear.left, 250), [(1, true)])], []⟩ : AppState).test_results,
      (fun _ : String => some (250 : ℚ)) ((fun _ : ℚ => unknownLabel) kv.1.2) =
        some kv.1.2) ∧
    roundTripSpec unknownLabel unknownLabel 1 [] [] (fun _ : ℚ => unknownLabel)
      (fun _ : String => some (250 : ℚ))
      ⟨[((Ear.left, 250), [(1, true)])], []⟩ ⟨[], []⟩ :=
  ⟨by decide, by decide,
   save_load_round_trip _ _ _ _ _ _ _ _ _ (by decide) (by decide)⟩

/-- C8: loading a malformed or missing results file (the open/json.load
    failure, a missing 'results' key, or a frequency key float() cannot
    parse) reports the failure and leaves the prior in-memory state — the
    current test results and the previous-results overlay list — unchanged,
    with no partial overlay appended. -/
theorem load_results_error_preserves_state (input : Except LoadError RawData)
    (dec : String → Option ℚ) (filename : String) (st : AppState) (e : LoadError)
    (h : (load_results input dec filename st).2 = Except.error e) :
    (load_results input dec filename st).1 = st := by
  rcases input with e0 | data
  · rfl
  · rcases hres : data.results with _ | raw
    · simp [load_results, hres]
    · rcases hdec : decodeResults dec raw with _ | fixed
      · simp [load_results, hres, hdec]
      · exfalso
        simp [load_results, hres, hdec] at h

/-- Witness for C8: loading a file whose JSON parse failed. -/
theorem load_results_error_preserves_state_witness :
    ((load_results (Except.error LoadError.parseError) (fun _ => none) unknownLabel
        ⟨[], []⟩).2 = Except.error LoadError.parseError) ∧
    (load_results (Except.error LoadError.parseError) (fun _ => none) unknownLabel
        ⟨[], []⟩).1 = ⟨[], []⟩ :=
  ⟨rfl, load_results_error_preserves_state _ _ _ _ _ rfl⟩

/- ------------------------------------------------------------------ -/
/- Helper lemmas: planner                                              -/
/- ------------------------------------------------------------------ -/

theorem create_test_sequence_quick_length (fb : List ℝ) (il : List ℚ) :
    (create_test_sequence fb il TestMode.quick).length = 48 := by
  simp [create_test_sequence, logspace, Function.comp_def, List.map_const']

theorem create_test_sequence_quick_map (fb : List ℝ) (il : List ℚ) :
    (create_test_sequence fb il TestMode.quick).map
        (fun t => (t.ear, t.frequency, t.intensity)) = quickExpectedTuples := by
  simp [create_test_sequence, quickExpectedTuples, List.map_flatMap, List.map_map]

/-- C6: any shuffle of the quick-mode planner output has exactly 48 trials,
    its (ear, frequency, intensity) multiset equals the cross product of
    {left, right} × 8 log-spaced frequencies in [250, 8000] Hz ×
    {0.2, 0.6, 1.0}, and every trial starts with heard unset. -/
theorem create_test_sequence_quick_spec (fb : List ℝ) (il : List ℚ) (l : List (Trial ℝ))
    (h : l.Perm (create_test_sequence fb il TestMode.quick)) : quickPlannerSpec l := by
  refine ⟨?_, ?_, ?_⟩
  · rw [h.length_eq]
    exact create_test_sequence_quick_length fb il
  · rw [Multiset.coe_eq_coe.mpr (h.map fun t => (t.ear, t.frequency, t.intensity)),
      create_test_sequence_quick_map]
  · intro t ht
    have hmem : t ∈ create_test_sequence fb il TestMode.quick := h.mem_iff.mp ht
    simp only [create_test_sequence, List.mem_flatMap, List.mem_map] at hmem
    obtain ⟨ear, _, freq, _, intensity, _, rfl⟩ := hmem
    rfl

/-- Witness for C6: the identity shuffle of the planner output. -/
theorem create_test_sequence_quick_spec_witness :
    (create_test_sequence [] [] TestMode.quick).Perm
      (create_test_sequence [] [] TestMode.quick) ∧
    quickPlannerSpec (create_test_sequence [] [] TestMode.quick) :=
  ⟨List.Perm.refl _,
   create_test_sequence_quick_spec [] [] _ (List.Perm.refl _)⟩

/- ------------------------------------------------------------------ -/
/- Helper lemmas: tone synthesis                                       -/
/- ------------------------------------------------------------------ -/

theorem generate_tone_length (sample_rate fade_duration : ℚ) (calibration_volume : ℝ)
    (frequency : ℝ) (intensity : ℚ) (duration_s : ℚ) :
    (generate_tone sample_rate fade_duration calibration_volume frequency intensity
      duration_s).length = (⌊sample_rate * duration_s⌋).toNat := by
  simp [generate_tone]

theorem peakAmplitude_le (l : List ℝ) (c : ℝ) (hc : 0 ≤ c) (h : ∀ x ∈ l, |x| ≤ c) :
    peakAmplitude l ≤ c := by
  induction l with
  | nil => simpa [peakAmplitude] using hc
  | cons x xs ih =>
    simp only [peakAmplitude, List.foldr_cons]
    exact max_le (h x (by simp)) (ih fun y hy => h y (by simp [hy]))

theorem peakAmplitude_lt (l : List ℝ) (c : ℝ) (hc : 0 < c) (h : ∀ x ∈ l, |x| < c) :
    peakAmplitude l < c := by
  induction l with
  | nil => simpa [peakAmplitude] using hc
  | cons x xs ih =>
    simp only [peakAmplitude, List.foldr_cons]
    exact max_lt (h x (by simp)) (ih fun y hy => h y (by simp [hy]))

theorem peakAmplitude_eq_zero (l : List ℝ) (h : ∀ x ∈ l, x = 0) : peakAmplitude l = 0 := by
  induction l with
  | nil => rfl
  | cons x xs ih =>
    have hx : x = 0 := h x (by simp)
    have hxs := ih fun y hy => h y (by simp [hy])
    simp only [peakAmplitude, List.foldr_cons] at hxs ⊢
    simp [hx, hxs]

theorem peakAmplitude_map_mul (l : List ℝ) (c : ℝ) (hc : 0 ≤ c) :
    peakAmplitude (l.map fun x => x * c) = peakAmplitude l * c := by
  induction l with
  | nil => simp [peakAmplitude]
  | cons x xs ih =>
    simp only [List.map_cons, peakAmplitude, List.foldr_cons] at ih ⊢
    rw [ih, abs_mul, abs_of_nonneg hc, ← max_mul_of_nonneg _ _ hc]

theorem linspace_zero_one_bounds (n i : ℕ) (hi : i < n) :
    0 ≤ linspace 0 1 n i ∧ linspace 0 1 n i ≤ 1 := by
  unfold linspace
  by_cases h : n ≤ 1
  · simp [h]
  · simp only [if_neg h]
    have h2 : 2 ≤ n := by omega
    have hn : (1 : ℝ) < (n : ℝ) := by exact_mod_cast h2
    have hpos : (0 : ℝ) < (n : ℝ) - 1 := by linarith
    have hi2 : (i : ℝ) ≤ (n : ℝ) - 1 := by
      have : (i : ℝ) + 1 ≤ (n : ℝ) := by exact_mod_cast hi
      linarith
    constructor
    · positivity
    · have hle : (i : ℝ) * (1 - 0) / ((n : ℝ) - 1) ≤ 1 := by
        rw [div_le_one hpos]
        linarith
      linarith

theorem linspace_one_zero_bounds (n i : ℕ) (hi : i < n) :
    0 ≤ linspace 1 0 n i ∧ linspace 1 0 n i ≤ 1 := by
  unfold linspace
  by_cases h : n ≤ 1
  · simp [h]
  · simp only [if_neg h]
    have h2 : 2 ≤ n := by omega
    have hn : (1 : ℝ) < (n : ℝ) := by exact_mod_cast h2
    have hpos : (0 : ℝ) < (n : ℝ) - 1 := by linarith
    have hi2 : (i : ℝ) ≤ (n : ℝ) - 1 := by
      have : (i : ℝ) + 1 ≤ (n : ℝ) := by exact_mod_cast hi
      linarith
    have hfrac : (i : ℝ) * (0 - 1) / ((n : ℝ) - 1) = -((i : ℝ) / ((n : ℝ) - 1)) := by
      ring
    have h0 : 0 ≤ (i : ℝ) / ((n : ℝ) - 1) := by positivity
    have h1' : (i : ℝ) / ((n : ℝ) - 1) ≤ 1 := by
      rw [div_le_one hpos]
      exact hi2
    constructor
    · rw [hfrac]
      linarith
    · rw [hfrac]
      linarith

theorem envVal_bounds (N F k : ℕ) (hk : k < N) : 0 ≤ envVal N F k ∧ envVal N F k ≤ 1 := by
  unfold envVal
  by_cases h1 : 2 * F < N
  · simp only [if_pos h1]
    by_cases h2 : k < F
    · simp only [if_pos h2]
      exact linspace_zero_one_bounds F k h2
    · simp only [if_neg h2]
      by_cases h3 : N - F ≤ k
      · simp only [if_pos h3]
        exact linspace_one_zero_bounds F (k - (N - F)) (by omega)
      · simp only [if_neg h3]
        norm_num
  · simp only [if_neg h1]
    norm_num

theorem abs_term_le (V s env : ℝ) (hV : 0 ≤ V) (hs : |s| ≤ 1)
    (he0 : 0 ≤ env) (he1 : env ≤ 1) : |V * s * env| ≤ V := by
  rw [abs_mul, abs_mul, abs_of_nonneg hV, abs_of_nonneg he0]
  nlinarith [abs_nonneg s, mul_nonneg hV (abs_nonneg s)]

theorem generate_tone_pos_intensity (sample_rate fade_duration : ℚ)
    (calibration_volume frequency : ℝ) (intensity duration_s : ℚ)
    (hc : 0 < calibration_volume) (hi : 0 < intensity) :
    generate_tone sample_rate fade_duration calibration_volume frequency intensity
        duration_s =
      (List.range ((⌊sample_rate * duration_s⌋).toNat)).map (fun k =>
        (calibration_volume * 0.01 * (100 : ℝ) ^ ((intensity : ℝ))) *
          Real.sin (2 * Real.pi * frequency *
            linspace 0 ((duration_s : ℝ)) ((⌊sample_rate * duration_s⌋).toNat) k) *
          envVal ((⌊sample_rate * duration_s⌋).toNat) ((⌊fade_duration * sample_rate⌋).toNat)
            k) := by
  have hii : ¬ (intensity ≤ 0) := not_le.mpr hi
  have hbase : calibration_volume / (calibration_volume * 0.01) = 100 := by
    rw [div_eq_iff (by positivity)]
    ring
  simp only [generate_tone, if_neg hii, hbase]

theorem generate_tone_peak_le (sample_rate fade_duration : ℚ)
    (calibration_volume frequency : ℝ) (intensity duration_s : ℚ)
    (hc : 0 < calibration_volume) (hi : 0 < intensity) :
    peakAmplitude (generate_tone sample_rate fade_duration calibration_volume frequency
        intensity duration_s) ≤
      calibration_volume * 0.01 * (100 : ℝ) ^ ((intensity : ℝ)) := by
  have hcoef : (0 : ℝ) ≤ calibration_volume * 0.01 * (100 : ℝ) ^ ((intensity : ℝ)) := by
    positivity
  apply peakAmplitude_le _ _ hcoef
  intro x hx
  rw [generate_tone_pos_intensity sample_rate fade_duration calibration_volume
    frequency intensity duration_s hc hi] at hx
  obtain ⟨k, hk, rfl⟩ := List.mem_map.1 hx
  obtain ⟨he0, he1⟩ := envVal_bounds _ _ _ (List.mem_range.1 hk)
  exact abs_term_le _ _ _ hcoef (Real.abs_sin_le_one _) he0 he1

/-- The sampling artifact behind the C3/C9 counterexamples: at 44.1 kHz and
    0.33 s, the frequency 727600/33 Hz puts every sample of the sine at a
    zero crossing, for any calibration volume. -/
theorem sampled_zero_tone (calibration_volume : ℝ) :
    ∀ x ∈ generate_tone 44100 (1/100) calibration_volume (727600/33) 1 (33/100),
      x = 0 := by
  have hN : ((⌊(44100 : ℚ) * (33/100)⌋).toNat) = 14553 := by norm_num; rfl
  intro x hx
  simp only [generate_tone, hN] at hx
  rw [if_neg (by norm_num : ¬ ((1 : ℚ) ≤ 0))] at hx
  obtain ⟨k, _, rfl⟩ := List.mem_map.1 hx
  have ht : linspace 0 (((33/100 : ℚ)) : ℝ) 14553 k = (k : ℝ) * (33/100) / 14552 := by
    unfold linspace
    rw [if_neg (by norm_num)]
    push_cast
    ring
  rw [ht]
  rw [show 2 * Real.pi * ((727600/33 : ℝ)) * ((k : ℝ) * (33/100) / 14552) =
      (k : ℝ) * Real.pi from by ring]
  rw [Real.sin_nat_mul_pi k]
  ring

/-- C3 (amended): for positive calibration volume (and at least one fade
    sample, the regime the source runs in), intensity ≤ 0 yields an all-zero
    buffer, and for positive intensity the buffer is
    (calibration_volume * 0.01 * 100 ** intensity) * sin(2 pi f t) * envelope
    sample-wise, so its peak amplitude is at most that coefficient. -/
theorem generate_tone_amplitude_law (sample_rate fade_duration : ℚ)
    (calibration_volume frequency : ℝ) (intensity duration_s : ℚ)
    (hc : 0 < calibration_volume) (hF : 1 ≤ (⌊fade_duration * sample_rate⌋).toNat) :
    generateToneSpec sample_rate fade_duration calibration_volume frequency intensity
      duration_s := by
  constructor
  · intro hi x hx
    simp only [generate_tone, if_pos hi] at hx
    obtain ⟨k, _, rfl⟩ := List.mem_map.1 hx
    simp
  · intro hi
    exact ⟨generate_tone_pos_intensity sample_rate fade_duration calibration_volume
        frequency intensity duration_s hc hi,
      generate_tone_peak_le sample_rate fade_duration calibration_volume frequency
        intensity duration_s hc hi⟩

/-- Witness for C3: the default configuration (44.1 kHz, 10 ms fade) with
    calibration volume 1. -/
theorem generate_tone_amplitude_law_witness :
    (0 : ℝ) < 1 ∧ 1 ≤ (⌊(1/100 : ℚ) * 44100⌋).toNat ∧
      generateToneSpec 44100 (1/100) 1 1000 (3/5) (33/100) :=
  ⟨one_pos, by norm_num,
   generate_tone_amplitude_law 44100 (1/100) 1 1000 (3/5) (33/100) one_pos (by norm_num)⟩

/-- Counterexample to C3 as stated: with the default configuration
    (sample_rate 44100, tone_duration 0.33, fade 0.01), calibration volume 1
    and intensity 1, the frequency 727600/33 Hz (≈ 22048.5 Hz) samples the
    sine exactly at its zero crossings, so the synthesized buffer is all
    zeros and its peak amplitude is 0, not
    calibration_volume * 0.01 * 100 ** intensity = 1. -/
theorem generate_tone_peak_counterexample :
    peakAmplitude (generate_tone 44100 (1/100) 1 (727600/33) 1 (33/100)) ≠
      1 * 0.01 * (100 : ℝ) ^ (((1 : ℚ) : ℝ)) := by
  rw [peakAmplitude_eq_zero _ (sampled_zero_tone 1)]
  rw [show (((1 : ℚ) : ℝ)) = 1 by norm_num, Real.rpow_one]
  norm_num

/- ------------------------------------------------------------------ -/
/- Helper lemmas: delivered audio                                      -/
/- ------------------------------------------------------------------ -/

theorem audio_callback_full_read (tone : List ℝ) (cal : ℝ) (noise : List ℝ)
    (h : 0 < tone.length) :
    (audio_callback ⟨true, tone, 0, cal⟩ tone.length noise).1 =
      tone.map fun x => x * cal := by
  have hcond : (⟨true, tone, 0, cal⟩ : AudioState).is_playing_tone ∧
      0 < (⟨true, tone, 0, cal⟩ : AudioState).current_tone.length := ⟨rfl, h⟩
  have hlt : (⟨true, tone, 0, cal⟩ : AudioState).audio_position <
      min ((⟨true, tone, 0, cal⟩ : AudioState).audio_position + tone.length)
        tone.length := by
    simp only []
    omega
  simp only [audio_callback, if_pos hcond, if_pos hlt]
  simp [List.take_length, h]

/-- C9 (amended): the realtime callback multiplies every sample of the
    already-scaled synthesized buffer by calibration_volume once more, so
    the stream delivered to the device is the buffer scaled by
    calibration_volume: its peak is calibration_volume times the buffer
    peak, hence at most calibration_volume ** 2 * 0.01 * 100 ** intensity
    (a factor calibration_volume below the buffer's peak bound). -/
theorem delivered_peak_spec (sample_rate fade_duration : ℚ)
    (calibration_volume frequency : ℝ) (intensity duration_s : ℚ) (noise : List ℝ)
    (hc : 0 < calibration_volume) (hN : 0 < (⌊sample_rate * duration_s⌋).toNat) :
    deliveredSpec sample_rate fade_duration calibration_volume frequency intensity
      duration_s noise := by
  have hlen : 0 < (generate_tone sample_rate fade_duration calibration_volume frequency
      intensity duration_s).length := by
    rw [generate_tone_length]
    exact hN
  have hout := audio_callback_full_read
    (generate_tone sample_rate fade_duration calibration_volume frequency intensity
      duration_s) calibration_volume noise hlen
  refine ⟨hout, ?_, ?_⟩
  · rw [hout, peakAmplitude_map_mul _ _ (le_of_lt hc)]
  · intro hi
    rw [hout, peakAmplitude_map_mul _ _ (le_of_lt hc)]
    have hpeak := generate_tone_peak_le sample_rate fade_duration calibration_volume
      frequency intensity duration_s hc hi
    calc peakAmplitude (generate_tone sample_rate fade_duration calibration_volume
            frequency intensity duration_s) * calibration_volume ≤
        (calibration_volume * 0.01 * (100 : ℝ) ^ ((intensity : ℝ))) * calibration_volume :=
          mul_le_mul_of_nonneg_right hpeak (le_of_lt hc)
      _ = calibration_volume * calibration_volume * 0.01 * (100 : ℝ) ^ ((intensity : ℝ)) :=
          by ring

/-- Witness for C9: the default configuration with calibration volume 1. -/
theorem delivered_peak_spec_witness :
    (0 : ℝ) < 1 ∧ 0 < (⌊(44100 : ℚ) * (33/100)⌋).toNat ∧
      deliveredSpec 44100 (1/100) 1 1000 (3/5) (33/100) [] :=
  ⟨one_pos, by norm_num,
   delivered_peak_spec 44100 (1/100) 1 1000 (3/5) (33/100) [] one_pos (by norm_num)⟩

/-- Counterexample to C9 as stated: at calibration volume 1/2, intensity 1
    and the zero-crossing frequency 727600/33 Hz, the delivered stream is
    all zeros, so its peak is 0 and not
    calibration_volume ** 2 * 0.01 * 100 ** intensity = 0.25. -/
theorem delivered_peak_counterexample :
    peakAmplitude ((audio_callback
        ⟨true, generate_tone 44100 (1/100) (1/2) (727600/33) 1 (33/100), 0, 1/2⟩
        (generate_tone 44100 (1/100) (1/2) (727600/33) 1 (33/100)).length []).1) ≠
      (1/2) * (1/2) * 0.01 * (100 : ℝ) ^ (((1 : ℚ) : ℝ)) := by
  have hlen : 0 < (generate_tone 44100 (1/100) (1/2 : ℝ) (727600/33) 1 (33/100)).length := by
    rw [generate_tone_length]
    norm_num
  rw [audio_callback_full_read _ (1/2) [] hlen]
  have hz2 : ∀ y ∈ (generate_tone 44100 (1/100) (1/2 : ℝ) (727600/33) 1 (33/100)).map
      (fun x => x * (1/2)), y = 0 := by
    intro y hy
    obtain ⟨x, hx, rfl⟩ := List.mem_map.1 hy
    rw [sampled_zero_tone (1/2) x hx]
    ring
  rw [peakAmplitude_eq_zero _ hz2]
  rw [show (((1 : ℚ) : ℝ)) = 1 by norm_num, Real.rpow_one]
  norm_num

/- ------------------------------------------------------------------ -/
/- Helper lemmas: calibration tone                                     -/
/- ------------------------------------------------------------------ -/

theorem abs_sin_lt_one_of_cos_ne_zero (x : ℝ) (h : Real.cos x ≠ 0) : |Real.sin x| < 1 := by
  have h1 : Real.sin x ^ 2 = 1 - Real.cos x ^ 2 := Real.sin_sq x
  have h2 : 0 < Real.cos x ^ 2 := pow_two_pos_of_ne_zero h
  have h3 : Real.sin x ^ 2 < 1 := by linarith
  exact (sq_lt_one_iff_abs_lt_one _).mp h3

/-- C10 (amended): play_calibration_tone builds its buffer as
    calibration_volume times a raw sine times the fade envelope — bypassing
    the logarithmic intensity mapping of generate_tone — so its peak
    amplitude is at most calibration_volume itself (not the test-tone law
    value for any intensity, and exact equality with calibration_volume need
    not hold). -/
theorem play_calibration_tone_peak (sample_rate fade_duration : ℚ)
    (calibration_volume calibration_frequency : ℝ) (hc : 0 ≤ calibration_volume) :
    calibrationToneSpec sample_rate fade_duration calibration_volume
      calibration_frequency := by
  constructor
  · rfl
  · apply peakAmplitude_le _ _ hc
    intro x hx
    simp only [play_calibration_tone] at hx
    obtain ⟨k, hk, rfl⟩ := List.mem_map.1 hx
    obtain ⟨he0, he1⟩ := envVal_bounds _ _ _ (List.mem_range.1 hk)
    exact abs_term_le _ _ _ hc (Real.abs_sin_le_one _) he0 he1

/-- Witness for C10: the default configuration at calibration volume 1. -/
theorem play_calibration_tone_peak_witness :
    (0 : ℝ) ≤ 1 ∧ calibrationToneSpec 44100 (1/100) 1 1000 :=
  ⟨zero_le_one, play_calibration_tone_peak 44100 (1/100) 1 1000 zero_le_one⟩

/-- Counterexample to C10 as stated: with the default configuration
    (1000 Hz calibration tone, 44.1 kHz, 1 s) and calibration volume 1/2,
    no sample of the 1000 Hz sine lands on an extremum (4000 k = 44099(2n+1)
    has no integer solution), so the buffer's peak amplitude is strictly
    below calibration_volume and in particular does not equal it. -/
theorem calibration_tone_peak_counterexample :
    peakAmplitude (play_calibration_tone 44100 (1/100) (1/2) 1000) ≠ (1/2 : ℝ) := by
  have hN : ((⌊(44100 : ℚ) * (1 : ℚ)⌋).toNat) = 44100 := by norm_num; rfl
  apply ne_of_lt
  apply peakAmplitude_lt _ _ (by norm_num)
  intro x hx
  simp only [play_calibration_tone, hN] at hx
  obtain ⟨k, hk, rfl⟩ := List.mem_map.1 hx
  obtain ⟨he0, he1⟩ := envVal_bounds _ _ _ (List.mem_range.1 hk)
  have ht : linspace 0 (((1 : ℚ)) : ℝ) 44100 k = (k : ℝ) / 44099 := by
    unfold linspace
    rw [if_neg (by norm_num)]
    push_cast
    ring
  rw [ht]
  have hcos : Real.cos (2 * Real.pi * (1000 : ℝ) * ((k : ℝ) / 44099)) ≠ 0 := by
    intro hcz
    rw [Real.cos_eq_zero_iff] at hcz
    obtain ⟨n, hn⟩ := hcz
    have h3 : (2000 : ℝ) * ((k : ℝ) / 44099) * Real.pi =
        ((2 * (n : ℝ) + 1) / 2) * Real.pi := by
      calc (2000 : ℝ) * ((k : ℝ) / 44099) * Real.pi
          = 2 * Real.pi * (1000 : ℝ) * ((k : ℝ) / 44099) := by ring
        _ = (2 * (n : ℝ) + 1) * Real.pi / 2 := hn
        _ = ((2 * (n : ℝ) + 1) / 2) * Real.pi := by ring
    have h4 : (2000 : ℝ) * ((k : ℝ) / 44099) = (2 * (n : ℝ) + 1) / 2 :=
      mul_right_cancel₀ Real.pi_ne_zero h3
    have h5 : (4000 : ℝ) * (k : ℝ) = 44099 * (2 * (n : ℝ) + 1) := by
      field_simp at h4
      linarith
    have h6 : (4000 : ℤ) * (k : ℤ) = 44099 * (2 * n + 1) := by exact_mod_cast h5
    omega
  have hsin := abs_sin_lt_one_of_cos_ne_zero _ hcos
  rw [abs_mul, abs_mul, abs_of_nonneg he0]
  rw [show |(1/2 : ℝ)| = 1/2 from by norm_num]
  nlinarith [abs_nonneg (Real.sin (2 * Real.pi * (1000 : ℝ) * ((k : ℝ) / 44099)))]

/- ------------------------------------------------------------------ -/
/- Helper lemmas: timeline compiler                                    -/
/- ------------------------------------------------------------------ -/

theorem sum_map_add_const {β : Type} (l : List β) (f : β → ℕ) (c : ℕ) :
    (l.map fun x => f x + c).sum = (l.map f).sum + l.length * c := by
  induction l with
  | nil => simp
  | cons x xs ih =>
    simp only [List.map_cons, List.sum_cons, List.length_cons, ih]
    ring

/-- Truncating a nonnegative duration to whole samples loses less than one
    sample: 0 ≤ x - int(x * sr) / sr < 1 / sr. -/
theorem floor_samples_loss (sr : ℚ) (hsr : 0 < sr) (x : ℚ) (hx : 0 ≤ x) :
    0 ≤ x - ((⌊x * sr⌋).toNat : ℚ) / sr ∧ x - ((⌊x * sr⌋).toNat : ℚ) / sr < 1 / sr := by
  have h0 : (0 : ℤ) ≤ ⌊x * sr⌋ := Int.floor_nonneg.mpr (by positivity)
  have hcast : (((⌊x * sr⌋).toNat : ℚ)) = ((⌊x * sr⌋ : ℤ) : ℚ) := by
    rw [show ((⌊x * sr⌋).toNat : ℚ) = (((⌊x * sr⌋).toNat : ℤ) : ℚ) from by push_cast; ring,
      Int.toNat_of_nonneg h0]
  have hle : ((⌊x * sr⌋ : ℤ) : ℚ) ≤ x * sr := Int.floor_le _
  have hgt : x * sr - 1 < ((⌊x * sr⌋ : ℤ) : ℚ) := Int.sub_one_lt_floor _
  constructor
  · rw [hcast, sub_nonneg, div_le_iff₀ hsr]
    linarith
  · rw [hcast, sub_lt_iff_lt_add, div_add_div_same, lt_div_iff₀ hsr]
    linarith

theorem gaps_loss_sum (sr : ℚ) (hsr : 0 < sr) :
    ∀ gaps : List ℚ, (∀ g ∈ gaps, 0 < g) →
      0 ≤ gaps.sum - (gaps.map fun g => ((⌊g * sr⌋).toNat : ℚ)).sum / sr ∧
      gaps.sum - (gaps.map fun g => ((⌊g * sr⌋).toNat : ℚ)).sum / sr ≤ gaps.length / sr := by
  intro gaps
  induction gaps with
  | nil => intro _; simp
  | cons g gs ih =>
    intro hg
    have h1 := floor_samples_loss sr hsr g (le_of_lt (hg g (by simp)))
    have h2 := ih fun x hx => hg x (by simp [hx])
    simp only [List.sum_cons, List.map_cons, List.length_cons]
    have hsplit : g + gs.sum -
        (((⌊g * sr⌋).toNat : ℚ) + (gs.map fun x => ((⌊x * sr⌋).toNat : ℚ)).sum) / sr =
        (g - ((⌊g * sr⌋).toNat : ℚ) / sr) +
          (gs.sum - (gs.map fun x => ((⌊x * sr⌋).toNat : ℚ)).sum / sr) := by
      field_simp
      ring
    rw [hsplit]
    have hlen : ((gs.length + 1 : ℕ) : ℚ) / sr = (gs.length : ℚ) / sr + 1 / sr := by
      push_cast
      field_simp
    rw [hlen]
    constructor
    · linarith [h1.1, h2.1]
    · linarith [h1.2, h2.2]

theorem compileAux_audio_length (sample_rate tone_duration fade_duration : ℚ)
    (calibration_volume : ℝ) :
    ∀ (l : List (Trial ℝ × ℚ)) (t : ℚ) (i : ℕ),
      (compileAux sample_rate tone_duration fade_duration calibration_volume l t i).1.length =
        (l.map fun p =>
          (⌊p.2 * sample_rate⌋).toNat + (⌊sample_rate * tone_duration⌋).toNat).sum +
          (⌊(2 : ℚ) * sample_rate⌋).toNat := by
  intro l
  induction l with
  | nil => intro t i; simp [compileAux]
  | cons p rest ih =>
    intro t i
    obtain ⟨test, gap⟩ := p
    simp only [compileAux, List.length_append, List.length_replicate, List.map_cons,
      List.sum_cons, generate_tone_length, ih]
    omega

theorem compileAux_events_length (sample_rate tone_duration fade_duration : ℚ)
    (calibration_volume : ℝ) :
    ∀ (l : List (Trial ℝ × ℚ)) (t : ℚ) (i : ℕ),
      (compileAux sample_rate tone_duration fade_duration calibration_volume l t i).2.length =
        l.length := by
  intro l
  induction l with
  | nil => intro t i; rfl
  | cons p rest ih =>
    intro t i
    obtain ⟨test, gap⟩ := p
    simp only [compileAux, List.length_cons, ih]

theorem compileAux_events_lb (sample_rate tone_duration fade_duration : ℚ)
    (calibration_volume : ℝ) (hsr : 0 < sample_rate) :
    ∀ (l : List (Trial ℝ × ℚ)) (t : ℚ) (i : ℕ), (∀ p ∈ l, 0 < p.2) →
      ∀ ev ∈ (compileAux sample_rate tone_duration fade_duration calibration_volume
          l t i).2,
        t < ev.start_time ∧
        ev.end_time = ev.start_time + ((⌊sample_rate * tone_duration⌋).toNat : ℚ) /
          sample_rate := by
  intro l
  induction l with
  | nil =>
    intro t i _ ev hev
    simp [compileAux] at hev
  | cons p rest ih =>
    intro t i hg ev hev
    obtain ⟨test, gap⟩ := p
    simp only [compileAux, generate_tone_length, List.mem_cons] at hev
    rcases hev with rfl | hev
    · have hgap : 0 < gap := hg (test, gap) (by simp)
      constructor
      · simp only []
        linarith
      · simp only []
    · have hrec := ih
        (t + gap + ((⌊sample_rate * tone_duration⌋).toNat : ℚ) / sample_rate) (i + 1)
        (fun q hq => hg q (by simp [hq])) ev hev
      have hgap : 0 < gap := hg (test, gap) (by simp)
      have htl : (0 : ℚ) ≤ ((⌊sample_rate * tone_duration⌋).toNat : ℚ) / sample_rate := by
        positivity
      exact ⟨by linarith [hrec.1], hrec.2⟩

theorem compileAux_pairwise (sample_rate tone_duration fade_duration : ℚ)
    (calibration_volume : ℝ) (hsr : 0 < sample_rate) :
    ∀ (l : List (Trial ℝ × ℚ)) (t : ℚ) (i : ℕ), (∀ p ∈ l, 0 < p.2) →
      ((compileAux sample_rate tone_duration fade_duration calibration_volume
          l t i).2).Pairwise
        (fun a b => a.start_time < b.start_time ∧ a.end_time ≤ b.start_time) := by
  intro l
  induction l with
  | nil => intro t i _; simp [compileAux]
  | cons p rest ih =>
    intro t i hg
    obtain ⟨test, gap⟩ := p
    simp only [compileAux, generate_tone_length]
    refine List.Pairwise.cons ?_ (ih _ _ fun q hq => hg q (by simp [hq]))
    intro b hb
    have hrec := compileAux_events_lb sample_rate tone_duration fade_duration
      calibration_volume hsr rest
      (t + gap + ((⌊sample_rate * tone_duration⌋).toNat : ℚ) / sample_rate) (i + 1)
      (fun q hq => hg q (by simp [hq])) b hb
    have htl : (0 : ℚ) ≤ ((⌊sample_rate * tone_duration⌋).toNat : ℚ) / sample_rate := by
      positivity
    exact ⟨by simp only []; linarith [hrec.1], by simp only []; linarith [hrec.1]⟩

/-- C2 (amended): for every trial list and positive gap draws, the compiled
    timeline has as many events as trials, strictly sorted and
    non-overlapping; the buffer length is exactly the truncated gap samples
    plus the per-trial tone samples plus the truncated trailing silence; and
    the total duration falls short of Σ drawn gaps + n·tone_duration + 2.0 s
    by less than one sample per gap, per tone and for the trailing silence
    (2n+1 samples in all) — not by at most one sample in general. -/
theorem generate_test_audio_stream_spec (sample_rate tone_duration fade_duration : ℚ)
    (calibration_volume : ℝ) (tests : List (Trial ℝ)) (gaps : List ℚ)
    (hlen : gaps.length = tests.length) (hsr : 0 < sample_rate)
    (htd : 0 ≤ tone_duration) (hg : ∀ g ∈ gaps, 0 < g) :
    compiledSpec sample_rate tone_duration fade_duration calibration_volume tests gaps := by
  have hzip_snd : (tests.zip gaps).map Prod.snd = gaps :=
    List.map_snd_zip tests gaps hlen.le
  have hziplen : (tests.zip gaps).length = tests.length := by
    rw [List.length_zip, hlen, min_self]
  have hgz : ∀ p ∈ tests.zip gaps, 0 < p.2 := fun p hp => hg p.2 (List.of_mem_zip hp).2
  have hunfold : generate_test_audio_stream sample_rate tone_duration fade_duration
      calibration_volume tests gaps =
      compileAux sample_rate tone_duration fade_duration calibration_volume
        (tests.zip gaps) 0 0 := rfl
  have hmapfl : ((tests.zip gaps).map fun p => (⌊p.2 * sample_rate⌋).toNat) =
      gaps.map fun g => (⌊g * sample_rate⌋).toNat := by
    rw [show ((tests.zip gaps).map fun p => (⌊p.2 * sample_rate⌋).toNat) =
        (((tests.zip gaps).map Prod.snd).map fun g => (⌊g * sample_rate⌋).toNat) from by
      rw [List.map_map]; rfl]
    rw [hzip_snd]
  have hnatlen : (generate_test_audio_stream sample_rate tone_duration fade_duration
      calibration_volume tests gaps).1.length =
      (gaps.map fun g => (⌊g * sample_rate⌋).toNat).sum +
        tests.length * (⌊sample_rate * tone_duration⌋).toNat +
        (⌊(2 : ℚ) * sample_rate⌋).toNat := by
    rw [hunfold, compileAux_audio_length, sum_map_add_const, hziplen, hmapfl]
  have hqlen : ((generate_test_audio_stream sample_rate tone_duration fade_duration
      calibration_volume tests gaps).1.length : ℚ) =
      (gaps.map fun g => ((⌊g * sample_rate⌋).toNat : ℚ)).sum +
        (tests.length : ℚ) * ((⌊sample_rate * tone_duration⌋).toNat : ℚ) +
        ((⌊(2 : ℚ) * sample_rate⌋).toNat : ℚ) := by
    rw [hnatlen]
    push_cast [List.map_map]
    rfl
  have hA := gaps_loss_sum sample_rate hsr gaps hg
  have hT := floor_samples_loss sample_rate hsr tone_duration htd
  rw [show tone_duration * sample_rate = sample_rate * tone_duration from mul_comm _ _]
    at hT
  have hTr := floor_samples_loss sample_rate hsr 2 (by norm_num)
  rw [show (2 : ℚ) * sample_rate = 2 * sample_rate from rfl] at hTr
  have hn0 : (0 : ℚ) ≤ (tests.length : ℚ) := Nat.cast_nonneg _
  have hdecomp : (gaps.sum + (tests.length : ℚ) * tone_duration + 2) -
      ((generate_test_audio_stream sample_rate tone_duration fade_duration
        calibration_volume tests gaps).1.length : ℚ) / sample_rate =
      (gaps.sum - (gaps.map fun g => ((⌊g * sample_rate⌋).toNat : ℚ)).sum / sample_rate) +
        (tests.length : ℚ) *
          (tone_duration - ((⌊sample_rate * tone_duration⌋).toNat : ℚ) / sample_rate) +
        (2 - ((⌊(2 : ℚ) * sample_rate⌋).toNat : ℚ) / sample_rate) := by
    rw [hqlen]
    field_simp
    ring
  refine ⟨?_, ?_, ?_, ?_, ?_⟩
  · rw [hunfold, compileAux_events_length, hziplen]
  · rw [hunfold]
    exact compileAux_pairwise sample_rate tone_duration fade_duration calibration_volume
      hsr (tests.zip gaps) 0 0 hgz
  · exact hqlen
  · rw [hdecomp]
    have h1 : (0 : ℚ) ≤ (tests.length : ℚ) *
        (tone_duration - ((⌊sample_rate * tone_duration⌋).toNat : ℚ) / sample_rate) :=
      mul_nonneg hn0 hT.1
    linarith [hA.1, hTr.1]
  · rw [hdecomp]
    have h1 : (tests.length : ℚ) *
        (tone_duration - ((⌊sample_rate * tone_duration⌋).toNat : ℚ) / sample_rate) ≤
        (tests.length : ℚ) * (1 / sample_rate) :=
      mul_le_mul_of_nonneg_left (le_of_lt hT.2) hn0
    have hsplit : (2 * (tests.length : ℚ) + 1) / sample_rate =
        (tests.length : ℚ) / sample_rate + (tests.length : ℚ) * (1 / sample_rate) +
          1 / sample_rate := by
      field_simp
      ring
    rw [hsplit]
    have hgl : ((gaps.length : ℚ)) = (tests.length : ℚ) := by exact_mod_cast hlen
    rw [hgl] at hA
    linarith [hA.2, hTr.2]

/-- Witness for C2: one trial with a 1 s gap at a 10 Hz sample rate. -/
theorem generate_test_audio_stream_spec_witness :
    ([(1 : ℚ)].length = [(⟨Ear.left, 440, 1, none⟩ : Trial ℝ)].length) ∧
    (0 : ℚ) < 10 ∧ (0 : ℚ) ≤ 1 ∧ (∀ g ∈ [(1 : ℚ)], 0 < g) ∧
    compiledSpec 10 1 1 1 [⟨Ear.left, 440, 1, none⟩] [1] :=
  ⟨rfl, by decide, by decide, by decide,
   generate_test_audio_stream_spec 10 1 1 1 _ _ rfl (by decide) (by decide) (by decide)⟩

/-- Counterexample to C2 as stated: at a 10 Hz sample rate with
    tone_duration 0.33 s, two trials with drawn gaps of 0.99 s each lose
    0.9 + 0.3 samples per trial to int() truncation, so the buffer is 44
    samples (4.4 s) while the drawn sum is 4.64 s — a discrepancy of 2.4
    samples, more than the claimed 1-sample tolerance. -/
theorem generate_test_audio_stream_tolerance_counterexample :
    ¬ compiledClaimStatement 10 (33/100)
        [⟨Ear.left, 440, 1, none⟩, ⟨Ear.right, 880, 1, none⟩] [99/100, 99/100]
        (generate_test_audio_stream 10 (33/100) (1/10) 1
          [⟨Ear.left, 440, 1, none⟩, ⟨Ear.right, 880, 1, none⟩] [99/100, 99/100]) := by
  rintro ⟨-, -, h3⟩
  have hnatlen : (generate_test_audio_stream 10 (33/100) (1/10) 1
      [⟨Ear.left, 440, 1, none⟩, ⟨Ear.right, 880, 1, none⟩] [99/100, 99/100]).1.length =
      44 := by
    rw [show generate_test_audio_stream 10 (33/100) (1/10) 1
        [⟨Ear.left, 440, 1, none⟩, ⟨Ear.right, 880, 1, none⟩] [99/100, 99/100] =
        compileAux 10 (33/100) (1/10) 1
          [(⟨Ear.left, 440, 1, none⟩, 99/100), (⟨Ear.right, 880, 1, none⟩, 99/100)] 0 0
        from rfl]
    rw [compileAux_audio_length]
    have h9 : (⌊(99/100 : ℚ) * 10⌋).toNat = 9 := by norm_num; rfl
    have ht3 : (⌊(10 : ℚ) * (33/100)⌋).toNat = 3 := by norm_num; rfl
    have h20 : (⌊(2 : ℚ) * 10⌋).toNat = 20 := by norm_num; rfl
    simp [h9, ht3, h20]
  rw [hnatlen] at h3
  have h4 := (abs_le.mp h3).1
  simp only [List.sum_cons, List.sum_nil, List.length_cons, List.length_nil] at h4
  norm_num at h4
